import Mathlib

/-!
Verification of the KML upload pipeline of this repository.

The embedding models, from the source:
- `validateFile` (src/components/forms/file-upload.tsx, `validateFile`),
- the orchestrator state machine of the `FileUpload` component
  (`handleFileSelect`, `handleUpload`, `clearFile` and the render guards),
- `requestPresignedUrl`, `uploadFileToS3`, `processKmlFile`
  (src/lib/api-service.ts),
- the `/api/presigned-url` proxy route (src/app/api/presigned-url/route.ts).

JavaScript strings are modelled as `List Char`; the JS string operations
used by the code (`split`, `pop`, `[0]`, `includes`, `endsWith`,
`toLowerCase`, `substr`, template literals) are given as executable
Lean functions mirroring their semantics.
-/

/-- JS strings are modelled as lists of characters. -/
abbrev Str := List Char

/-- JS `String.prototype.split(sep)` for a one-character separator.
`split` always returns a non-empty array; an empty string yields `[""]`. -/
def splitOnChar (c : Char) : Str → List Str
  | [] => [[]]
  | x :: xs =>
    if x = c then [] :: splitOnChar c xs
    else
      match splitOnChar c xs with
      | [] => [[x]]
      | y :: ys => (x :: y) :: ys

/-- Whether `p` is a leading prefix of `s` (character-wise equality). -/
def isPrefixList : Str → Str → Bool
  | [], _ => true
  | _ :: _, [] => false
  | a :: as, b :: bs => a = b && isPrefixList as bs

/-- JS `hay.includes(needle)`: `needle` occurs contiguously in `hay`. -/
def strIncludes (needle : Str) : Str → Bool
  | [] => isPrefixList needle []
  | c :: rest => isPrefixList needle (c :: rest) || strIncludes needle rest

/-- JS `s.endsWith(suffix)`. -/
def strEndsWith (s suffix : Str) : Bool :=
  isPrefixList suffix.reverse s.reverse

/-- JS `s.toLowerCase()` (ASCII, which is all the code compares). -/
def lowerStr (s : Str) : Str := s.map Char.toLower

/-- Strip a literal leading prefix, or fail. -/
def dropPrefixStr : Str → Str → Option Str
  | [], s => some s
  | _ :: _, [] => none
  | p :: ps, c :: cs => if p = c then dropPrefixStr ps cs else none

/-- The character for a decimal digit `d < 10`. -/
def digitChar (d : Nat) : Char := Char.ofNat (48 + d)

/-- Decimal rendering of a natural number, fuelled (fuel `n + 1` suffices). -/
def natDecimalGo : Nat → Nat → Str
  | 0, _ => []
  | fuel + 1, n =>
    if n < 10 then [digitChar n]
    else natDecimalGo fuel (n / 10) ++ [digitChar (n % 10)]

/-- JS template interpolation of a non-negative number, e.g. `Date.now()`. -/
def natDecimal (n : Nat) : Str := natDecimalGo (n + 1) n

/-! ## Validator (file-upload.tsx, `validateFile`) -/

/-- The two validation failures of `validateFile`; the source returns the
message strings `File size must be less than {maxFileSize}MB` and
`Only {acceptedTypes.join(', ')} files are allowed` respectively. -/
inductive ValidationError where
  | tooLarge
  | unsupportedType
deriving DecidableEq, Repr

/-- `'.' + file.name.split('.').pop()?.toLowerCase()` from `validateFile`. -/
def fileExtension (name : Str) : Str :=
  '.' :: lowerStr ((splitOnChar '.' name).getLastD [])

/-- `validateFile` from file-upload.tsx: size check against
`maxFileSize * 1024 * 1024` (the prop is in MB), then extension membership
in `acceptedTypes`; `none` means the file is accepted. -/
def validateFile (name : Str) (size : Nat) (maxFileSizeMB : Nat)
    (acceptedTypes : List Str) : Option ValidationError :=
  if size > maxFileSizeMB * 1024 * 1024 then some .tooLarge
  else if !(acceptedTypes.contains (fileExtension name)) then some .unsupportedType
  else none

/-- C2: the validator is a pure function (it is modelled as a total Lean
function of its inputs alone); a file larger than the byte limit fails with
`TooLarge`; a file within the limit whose lowercase file-name suffix is not
in the accepted extensions fails with `UnsupportedType`; a file satisfying
both constraints is accepted. -/
theorem C2_validate (name : Str) (size maxMB : Nat) (accepted : List Str) :
    (size > maxMB * 1024 * 1024 →
      validateFile name size maxMB accepted = some .tooLarge) ∧
    (size ≤ maxMB * 1024 * 1024 →
      accepted.contains (fileExtension name) = false →
      validateFile name size maxMB accepted = some .unsupportedType) ∧
    (size ≤ maxMB * 1024 * 1024 →
      accepted.contains (fileExtension name) = true →
      validateFile name size maxMB accepted = none) := by
  refine ⟨fun h => ?_, fun h1 h2 => ?_, fun h1 h2 => ?_⟩
  · simp [validateFile, h]
  · rw [validateFile, if_neg (by omega), h2]
    simp
  · rw [validateFile, if_neg (by omega), h2]
    simp

/-- Witness for C2 at the spec's own scenario inputs: `parcel.kml`,
2 MiB, 50 MB limit, accepted extensions `.kml`, `.kmz`. -/
theorem C2_validate_witness :
    validateFile ("parcel.kml".toList) (2 * 1024 * 1024) 50
      [".kml".toList, ".kmz".toList] = none :=
  (C2_validate ("parcel.kml".toList) (2 * 1024 * 1024) 50
      [".kml".toList, ".kmz".toList]).2.2 (by norm_num) (by decide)

/-! ## Upload orchestrator state machine (file-upload.tsx, `FileUpload`)

The component state is `uploadStatus.status` (one of `idle`, `uploading`,
`success`, `error`) plus whether a file is currently selected
(`selectedFile !== null`).  The operations, with their enabling conditions
taken from the handlers and the render guards of the component:

- selecting a file runs `handleFileSelect` (reachable in every state via
  the drag-and-drop handlers attached unconditionally to the card):
  a file passing `validateFile` sets `selectedFile` and status `idle`;
  a failing file sets status `error` and leaves `selectedFile` unchanged;
- `handleUpload` is invoked only from the Upload button, rendered only when
  `selectedFile && uploadStatus.status === 'idle'`; it sets `uploading`;
- the progress callback performs a functional update that never changes
  the `status` field;
- completion / failure of the in-flight pipeline sets `success` / `error`;
- `clearFile` resets to `idle` with no selected file (X button, and the
  `Upload Another` / `Try Again` buttons). -/

/-- The `status` field of `UploadStatus`. -/
inductive UStatus where
  | idle
  | uploading
  | success
  | error
deriving DecidableEq, Repr

/-- Orchestrator state: status plus whether a file is selected. -/
structure OrchState where
  status : UStatus
  hasFile : Bool
deriving DecidableEq, Repr

/-- The orchestrator operations of the `FileUpload` component. -/
inductive OrchEvent where
  | selectValid
  | selectInvalid
  | startUpload
  | progressUpdate
  | stageSuccess
  | stageFailure
  | clearFile
deriving DecidableEq, Repr

/-- One orchestrator step; `none` means the operation is not enabled in
this state (button not rendered / guard `if (!selectedFile) return` /
no pipeline in flight). -/
def orchStep (s : OrchState) : OrchEvent → Option OrchState
  | .selectValid => some ⟨.idle, true⟩
  | .selectInvalid => some ⟨.error, s.hasFile⟩
  | .startUpload =>
    if s.hasFile = true ∧ s.status = .idle then some ⟨.uploading, true⟩ else none
  | .progressUpdate => some s
  | .stageSuccess =>
    if s.status = .uploading then some ⟨.success, s.hasFile⟩ else none
  | .stageFailure =>
    if s.status = .uploading then some ⟨.error, s.hasFile⟩ else none
  | .clearFile => some ⟨.idle, false⟩

/-- Run a sequence of orchestrator operations. -/
def orchRun (s : OrchState) : List OrchEvent → Option OrchState
  | [] => some s
  | e :: es =>
    match orchStep s e with
    | none => none
    | some s' => orchRun s' es

/-- C1 counterexample: from the initial state, select a valid file, start
the upload and let it succeed; the machine is in `Success`.  Selecting a
new valid file then moves `Success` back to `Idle`, and that operation is
not the explicit reset `clearFile`.  So a backward transition other than
reset exists, refuting the claim as stated. -/
theorem C1_counterexample :
    orchRun ⟨.idle, false⟩ [.selectValid, .startUpload, .stageSuccess]
        = some ⟨.success, true⟩ ∧
    orchStep ⟨.success, true⟩ .selectValid = some ⟨.idle, true⟩ ∧
    OrchEvent.selectValid ≠ OrchEvent.clearFile := by
  decide

/-- C1 amended: the machine enters `Uploading` only via `startUpload` from
`Idle` (progress updates keep it in `Uploading`), so no operation ever
moves `Success` or `Error` back to `Uploading`; and the machine returns to
`Idle` from a non-`Idle` state only through the explicit reset
(`clearFile`) or through selection of a new valid file. -/
theorem C1_amended (s s' : OrchState) (e : OrchEvent)
    (h : orchStep s e = some s') :
    (s'.status = .uploading →
      (s.status = .idle ∧ e = .startUpload) ∨
      (s.status = .uploading ∧ e = .progressUpdate)) ∧
    (s.status ≠ .idle → s'.status = .idle →
      e = .clearFile ∨ e = .selectValid) := by
  obtain ⟨st, hf⟩ := s
  cases e <;> cases st <;> cases hf <;>
    simp_all [orchStep] <;>
    (try subst h) <;> simp_all

/-- Witness for C1 amended at a concrete step: completing the in-flight
upload from `Uploading` (with a file selected) lands in `Success`. -/
theorem C1_amended_witness :
    ((OrchState.mk .success true).status = .uploading →
      ((OrchState.mk .uploading true).status = .idle ∧
        OrchEvent.stageSuccess = .startUpload) ∨
      ((OrchState.mk .uploading true).status = .uploading ∧
        OrchEvent.stageSuccess = .progressUpdate)) ∧
    ((OrchState.mk .uploading true).status ≠ .idle →
      (OrchState.mk .success true).status = .idle →
      OrchEvent.stageSuccess = .clearFile ∨
      OrchEvent.stageSuccess = .selectValid) :=
  C1_amended ⟨.uploading, true⟩ ⟨.success, true⟩ .stageSuccess (by decide)

/-! ## Credential requester (api-service.ts, `requestPresignedUrl`) -/

/-- Failure kinds of `requestPresignedUrl`; the source throws `Error`s with
the messages `File size exceeds 50MB limit`, `Only KML and KMZ files are
allowed`, `Failed to get presigned URL: {status} {statusText}`,
`Invalid response from server: missing presignedUrl`, and a generic wrapped
message for transport failures. -/
inductive CredError where
  | payloadTooLarge
  | unsupportedMediaType
  | upstreamError (status : Nat)
  | malformedResponse
  | transportFailure
deriving DecidableEq, Repr

/-- `'application/vnd.google-earth.kml'`. -/
def kmlMime : Str := "application/vnd.google-earth.kml".toList

/-- `'application/vnd.google-earth.kmz'`. -/
def kmzMime : Str := "application/vnd.google-earth.kmz".toList

/-- The two client-side checks performed by `requestPresignedUrl` before
its `fetch` call, in source order: size against `50 * 1024 * 1024`, then
the disjunctive MIME / extension check. -/
def clientValidate (fileName fileType : Str) (fileSize : Nat) :
    Option CredError :=
  if fileSize > 50 * 1024 * 1024 then some .payloadTooLarge
  else if !strIncludes kmlMime fileType && !strIncludes kmzMime fileType
      && !strEndsWith (lowerStr fileName) (".kml".toList)
      && !strEndsWith (lowerStr fileName) (".kmz".toList) then
    some .unsupportedMediaType
  else none

/-- JSON body of a reply from `/api/presigned-url`, with each field
optional (absent fields are JS `undefined`). -/
structure ApiRespBody where
  presignedUrl : Option Str
  fileKey : Option Str
  expiresIn : Option Nat
  fields : Option (List (Str × Str))
deriving DecidableEq, Repr

/-- Outcome of a `fetch`: an HTTP response with a parsed body, or a
transport-level rejection. -/
inductive Fetch (β : Type) where
  | response (status : Nat) (body : β)
  | transportError
deriving DecidableEq, Repr

/-- `Response.ok`: status in the range 200–299. -/
def responseOk (status : Nat) : Prop := 200 ≤ status ∧ status < 300

instance (status : Nat) : Decidable (responseOk status) := by
  unfold responseOk; infer_instance

/-- The `PresignedUrlResponse` record returned on success. -/
structure PresignedUrlResponse where
  presignedUrl : Str
  fileKey : Str
  expiresIn : Nat
  fields : List (Str × Str)
deriving DecidableEq, Repr

/-- Result of `requestPresignedUrl` (`Promise` resolution or rejection). -/
inductive CredResult where
  | ok (r : PresignedUrlResponse)
  | error (e : CredError)
deriving DecidableEq, Repr

/-- JS `a || b` for an optional string (`undefined`, `null` and `''` are
falsy). -/
def jsOrStr (v : Option Str) (d : Str) : Str :=
  match v with
  | none => d
  | some s => if s = [] then d else s

/-- JS `a || b` for an optional number (`undefined`, `null` and `0` are
falsy). -/
def jsOrNat (v : Option Nat) (d : Nat) : Nat :=
  match v with
  | none => d
  | some n => if n = 0 then d else n

/-- JS falsiness of an optional string value. -/
def jsFalsyStr (v : Option Str) : Bool :=
  match v with
  | none => true
  | some s => s = []

/-- `requestPresignedUrl` from api-service.ts.  `now` models `Date.now()`
and `net` the outcome of the single `fetch('/api/presigned-url', ...)`
call; the validation errors are thrown before that call, so on those paths
the result does not depend on `net`. -/
def requestPresignedUrl (fileName fileType : Str) (fileSize : Nat)
    (now : Nat) (net : Fetch ApiRespBody) : CredResult :=
  match clientValidate fileName fileType fileSize with
  | some e => .error e
  | none =>
    match net with
    | .transportError => .error .transportFailure
    | .response status body =>
      if responseOk status then
        if jsFalsyStr body.presignedUrl then .error .malformedResponse
        else
          .ok
            { presignedUrl := body.presignedUrl.getD []
              fileKey :=
                jsOrStr body.fileKey
                  ("kml-uploads/".toList ++ natDecimal now ++ '-' :: fileName)
              expiresIn := jsOrNat body.expiresIn 3600
              fields :=
                body.fields.getD
                  [("Content-Type".toList, fileType),
                   ("x-amz-meta-original-name".toList, fileName),
                   ("x-amz-meta-upload-timestamp".toList, natDecimal now)] }
      else .error (.upstreamError status)

/-- C6 counterexample: a 50 MiB + 1 byte file whose MIME type and name both
fail the `.kml`/`.kmz` check is rejected with the size error
(`PayloadTooLarge`), not with `UnsupportedMediaType`, because the source
performs the size check first; so the claim's unqualified second clause
fails on inputs violating both constraints. -/
theorem C6_counterexample :
    strIncludes kmlMime ("image/png".toList) = false ∧
    strIncludes kmzMime ("image/png".toList) = false ∧
    strEndsWith (lowerStr ("big.png".toList)) (".kml".toList) = false ∧
    strEndsWith (lowerStr ("big.png".toList)) (".kmz".toList) = false ∧
    requestPresignedUrl ("big.png".toList) ("image/png".toList)
        (50 * 1024 * 1024 + 1) 0 .transportError = .error .payloadTooLarge ∧
    CredError.payloadTooLarge ≠ CredError.unsupportedMediaType := by
  refine ⟨by decide, by decide, by decide, by decide, by decide, by decide⟩

/-- C6 amended: `requestPresignedUrl` re-validates before its network call:
any input over 50 MiB fails with `PayloadTooLarge`, and any input within
the limit whose MIME type and file name both fail the `.kml`/`.kmz` check
fails with `UnsupportedMediaType`; in both cases the result is the same for
every network outcome `net`, i.e. independent of the network call. -/
theorem C6_amended (name ty : Str) (size now : Nat) (net : Fetch ApiRespBody) :
    (size > 50 * 1024 * 1024 →
      requestPresignedUrl name ty size now net = .error .payloadTooLarge) ∧
    (size ≤ 50 * 1024 * 1024 →
      strIncludes kmlMime ty = false →
      strIncludes kmzMime ty = false →
      strEndsWith (lowerStr name) (".kml".toList) = false →
      strEndsWith (lowerStr name) (".kmz".toList) = false →
      requestPresignedUrl name ty size now net = .error .unsupportedMediaType) := by
  constructor
  · intro h
    rw [requestPresignedUrl.eq_def, clientValidate, if_pos (by omega)]
  · intro h1 h2 h3 h4 h5
    rw [requestPresignedUrl.eq_def, clientValidate, if_neg (by omega),
      h2, h3, h4, h5]
    rfl

/-- Witness for C6 amended: an oversized `.kml` file is rejected with the
size error without the network being consulted (`net = transportError`). -/
theorem C6_amended_witness :
    requestPresignedUrl ("a.kml".toList)
        ("application/vnd.google-earth.kml".toList)
        (50 * 1024 * 1024 + 1) 0 .transportError = .error .payloadTooLarge :=
  (C6_amended ("a.kml".toList) ("application/vnd.google-earth.kml".toList)
      (50 * 1024 * 1024 + 1) 0 .transportError).1 (by norm_num)

/-- C7: for every input passing the client-side validation, a success
(2xx) reply from `/api/presigned-url` whose body has no `presignedUrl`
field makes `requestPresignedUrl` fail with `MalformedResponse` instead of
returning credentials. -/
theorem C7_malformed (name ty : Str) (size now status : Nat)
    (fk : Option Str) (ei : Option Nat) (fl : Option (List (Str × Str)))
    (hv : clientValidate name ty size = none)
    (h2 : 200 ≤ status) (h3 : status < 300) :
    requestPresignedUrl name ty size now
        (.response status ⟨none, fk, ei, fl⟩) = .error .malformedResponse := by
  rw [requestPresignedUrl, hv]
  simp only [if_pos (show responseOk status from ⟨h2, h3⟩)]
  rfl

/-- Witness for C7: a 200 reply with an empty body for a valid 1-byte
`a.kml` upload request. -/
theorem C7_malformed_witness :
    requestPresignedUrl ("a.kml".toList)
        ("application/vnd.google-earth.kml".toList) 1 0
        (.response 200 ⟨none, none, none, none⟩) = .error .malformedResponse :=
  C7_malformed ("a.kml".toList) ("application/vnd.google-earth.kml".toList)
    1 0 200 none none none (by decide) (by norm_num) (by norm_num)

/-- C10: the defense-in-depth type check is disjunctive: the
`UnsupportedMediaType` error arises only when the MIME type contains
neither KML nor KMZ media type and the lowercase name ends in neither
`.kml` nor `.kmz`; conversely an input satisfying any one of the four
conditions is never rejected with `UnsupportedMediaType`. -/
theorem C10_disjunctive (name ty : Str) (size : Nat) :
    (clientValidate name ty size = some .unsupportedMediaType →
      strIncludes kmlMime ty = false ∧ strIncludes kmzMime ty = false ∧
      strEndsWith (lowerStr name) (".kml".toList) = false ∧
      strEndsWith (lowerStr name) (".kmz".toList) = false) ∧
    ((strIncludes kmlMime ty = true ∨ strIncludes kmzMime ty = true ∨
      strEndsWith (lowerStr name) (".kml".toList) = true ∨
      strEndsWith (lowerStr name) (".kmz".toList) = true) →
      clientValidate name ty size ≠ some .unsupportedMediaType) := by
  constructor
  · intro h
    rw [clientValidate] at h
    by_cases hs : size > 50 * 1024 * 1024
    · rw [if_pos hs] at h
      exact absurd h (by decide)
    · rw [if_neg hs] at h
      by_cases hc : (!strIncludes kmlMime ty && !strIncludes kmzMime ty
          && !strEndsWith (lowerStr name) (".kml".toList)
          && !strEndsWith (lowerStr name) (".kmz".toList)) = true
      · simp only [Bool.and_eq_true, Bool.not_eq_true'] at hc
        exact ⟨hc.1.1.1, hc.1.1.2, hc.1.2, hc.2⟩
      · rw [if_neg hc] at h
        exact absurd h (by simp)
  · intro h hcontra
    have := (by
      rw [clientValidate] at hcontra
      by_cases hs : size > 50 * 1024 * 1024
      · rw [if_pos hs] at hcontra
        exact absurd hcontra (by decide)
      · rw [if_neg hs] at hcontra
        by_cases hc : (!strIncludes kmlMime ty && !strIncludes kmzMime ty
            && !strEndsWith (lowerStr name) (".kml".toList)
            && !strEndsWith (lowerStr name) (".kmz".toList)) = true
        · simp only [Bool.and_eq_true, Bool.not_eq_true'] at hc
          exact ⟨hc.1.1.1, hc.1.1.2, hc.1.2, hc.2⟩
        · rw [if_neg hc] at hcontra
          exact absurd hcontra (by simp) :
      strIncludes kmlMime ty = false ∧ strIncludes kmzMime ty = false ∧
      strEndsWith (lowerStr name) (".kml".toList) = false ∧
      strEndsWith (lowerStr name) (".kmz".toList) = false)
    rcases h with h | h | h | h <;> simp_all

/-- Witness for C10: a file named `data.bin` with a KML MIME type is not
rejected by the type check even though its extension is neither `.kml`
nor `.kmz`. -/
theorem C10_disjunctive_witness :
    clientValidate ("data.bin".toList)
        ("application/vnd.google-earth.kml".toList) 10
      ≠ some .unsupportedMediaType :=
  (C10_disjunctive ("data.bin".toList)
      ("application/vnd.google-earth.kml".toList) 10).2 (Or.inl (by decide))

/-! ## Transfer agent (api-service.ts, `uploadFileToS3`)

Auxiliary list lemmas relating `splitOnChar` to `takeWhile`, used to show
that the code's `split('/').pop()?.split('?')[0]` equals the spec's
"substring after the last `/` with any `?...` suffix removed". -/

theorem splitOnChar_ne_nil (c : Char) (s : Str) : splitOnChar c s ≠ [] := by
  cases s with
  | nil => simp [splitOnChar]
  | cons x xs =>
    rw [splitOnChar]
    by_cases h : x = c
    · simp [h]
    · rw [if_neg h]
      cases hs : splitOnChar c xs <;> simp

theorem headD_splitOnChar (c : Char) (s : Str) :
    (splitOnChar c s).headD [] = s.takeWhile (fun x => x != c) := by
  induction s with
  | nil => rfl
  | cons x xs ih =>
    rw [splitOnChar]
    by_cases h : x = c
    · subst h
      simp [List.takeWhile]
    · rw [if_neg h]
      cases hs : splitOnChar c xs with
      | nil => exact absurd hs (splitOnChar_ne_nil c xs)
      | cons y ys =>
        rw [hs] at ih
        simp only [List.headD_cons] at ih
        have hb : (x != c) = true := bne_iff_ne.mpr h
        simp [List.takeWhile, hb, ← ih]

theorem takeWhile_app_last_false {α : Type} {p : α → Bool} {a : α}
    (ha : p a = false) (l : List α) :
    (l ++ [a]).takeWhile p = l.takeWhile p := by
  induction l with
  | nil => simp [List.takeWhile, ha]
  | cons x xs ih =>
    by_cases h : p x
    · simp [List.takeWhile, h, List.append_eq, ih]
    · simp only [Bool.not_eq_true] at h
      simp [List.takeWhile, h]

theorem takeWhile_app_forall {α : Type} {p : α → Bool} {l l' : List α}
    (h : ∀ x ∈ l, p x = true) :
    (l ++ l').takeWhile p = l ++ l'.takeWhile p := by
  induction l with
  | nil => simp
  | cons x xs ih =>
    have hx : p x = true := h x (by simp)
    simp only [List.cons_append, List.takeWhile, hx, List.append_eq]
    rw [ih (fun y hy => h y (by simp [hy]))]

theorem takeWhile_app_exists {α : Type} {p : α → Bool} {l l' : List α} {x : α}
    (hx : x ∈ l) (hpx : p x = false) :
    (l ++ l').takeWhile p = l.takeWhile p := by
  induction l with
  | nil => cases hx
  | cons y ys ih =>
    by_cases h : p y
    · rcases List.mem_cons.mp hx with rfl | hmem
      · rw [h] at hpx; cases hpx
      · simp only [List.cons_append, List.takeWhile, h, List.append_eq]
        rw [ih hmem]
    · simp only [Bool.not_eq_true] at h
      simp [List.takeWhile, h]

theorem splitOnChar_of_not_mem {c : Char} {s : Str} (h : c ∉ s) :
    splitOnChar c s = [s] := by
  induction s with
  | nil => rfl
  | cons x xs ih =>
    rw [splitOnChar, if_neg (by rintro rfl; exact h (by simp)),
      ih (fun hm => h (by simp [hm]))]

theorem mem_iff_two_le_length_splitOnChar {c : Char} {s : Str} :
    c ∈ s ↔ 2 ≤ (splitOnChar c s).length := by
  induction s with
  | nil => simp [splitOnChar]
  | cons x xs ih =>
    rw [splitOnChar]
    by_cases h : x = c
    · subst h
      have := splitOnChar_ne_nil x xs
      simp only [if_pos rfl, List.length_cons, List.mem_cons, true_or, true_iff]
      cases hs : splitOnChar x xs with
      | nil => exact absurd hs this
      | cons y ys => simp
    · rw [if_neg h]
      cases hs : splitOnChar c xs with
      | nil => exact absurd hs (splitOnChar_ne_nil c xs)
      | cons y ys =>
        rw [hs] at ih
        simp only [List.mem_cons, List.length_cons] at ih ⊢
        constructor
        · rintro (rfl | hm)
          · exact absurd rfl h
          · exact ih.mp hm
        · intro hl
          exact Or.inr (ih.mpr hl)

theorem getLastD_irrel {α : Type} (l : List α) (hl : l ≠ []) (d d' : α) :
    l.getLastD d = l.getLastD d' := by
  cases l with
  | nil => exact absurd rfl hl
  | cons x xs =>
    rw [List.getLastD_eq_getLast?, List.getLastD_eq_getLast?,
      List.getLast?_eq_getLast (x :: xs) (by simp)]
    rfl

theorem getLastD_splitOnChar (c : Char) (s : Str) :
    (splitOnChar c s).getLastD [] =
      (s.reverse.takeWhile (fun x => x != c)).reverse := by
  induction s with
  | nil => rfl
  | cons x xs ih =>
    have hrev : (x :: xs).reverse = xs.reverse ++ [x] := by simp
    rw [splitOnChar]
    by_cases h : x = c
    · subst h
      rw [if_pos rfl]
      have h1 : (([] : Str) :: splitOnChar x xs).getLastD [] =
          (splitOnChar x xs).getLastD [] := by
        cases hs : splitOnChar x xs with
        | nil => exact absurd hs (splitOnChar_ne_nil x xs)
        | cons y ys => simp [List.getLastD_cons]
      rw [h1, ih, hrev, takeWhile_app_last_false (by simp) xs.reverse]
    · rw [if_neg h]
      cases hs : splitOnChar c xs with
      | nil => exact absurd hs (splitOnChar_ne_nil c xs)
      | cons y ys =>
        rw [hs] at ih
        cases ys with
        | nil =>
          have hnm : c ∉ xs := by
            intro hm
            have := mem_iff_two_le_length_splitOnChar.mp hm
            rw [hs] at this
            simp at this
          have h2 := splitOnChar_of_not_mem hnm
          rw [hs] at h2
          injection h2 with h2a
          have hall : ∀ ch ∈ xs.reverse, (ch != c) = true := by
            intro ch hch
            exact bne_iff_ne.mpr (fun he => hnm (he ▸ List.mem_reverse.mp hch))
          have hx : ((x != c) : Bool) = true := bne_iff_ne.mpr h
          rw [hrev, takeWhile_app_forall hall]
          simp [List.takeWhile, hx, List.getLastD, h2a]
        | cons z zs =>
          have hm : c ∈ xs := by
            apply mem_iff_two_le_length_splitOnChar.mpr
            rw [hs]; simp
          have e1 : ((x :: y) :: z :: zs).getLastD ([] : Str) =
              (z :: zs).getLastD (x :: y) := List.getLastD_cons ..
          have e2 : (y :: z :: zs).getLastD ([] : Str) =
              (z :: zs).getLastD y := List.getLastD_cons ..
          have hgl : ((x :: y) :: z :: zs).getLastD ([] : Str) =
              (y :: z :: zs).getLastD [] :=
            e1.trans ((getLastD_irrel (z :: zs) (by simp) _ _).trans e2.symm)
          rw [hgl, ih, hrev,
            takeWhile_app_exists (List.mem_reverse.mpr hm) (by simp)]

/-- File-key derivation of `uploadFileToS3` (and of the upload-proxy
route, which uses the identical expression):
`presignedUrl.split('/').pop()?.split('?')[0] ||
 input_kml_files/{Date.now()}-{file.name}`. -/
def fileKeyFromUrl (presignedUrl : Str) (now : Nat) (fileName : Str) : Str :=
  let seg := (splitOnChar '/' presignedUrl).getLastD []
  let key := (splitOnChar '?' seg).headD []
  if key = [] then
    "input_kml_files/".toList ++ natDecimal now ++ '-' :: fileName
  else key

/-- The spec's description of the derivation: the substring after the last
`/` of the URL. -/
def specAfterLastSlash (url : Str) : Str :=
  (url.reverse.takeWhile (fun x => x != '/')).reverse

/-- The spec's description: remove any `?...` suffix. -/
def specBeforeQuery (s : Str) : Str := s.takeWhile (fun x => x != '?')

/-- The file key as the spec words it (C5): the path segment after the
last `/` with any query-string suffix removed; if that is empty,
synthesize `input_kml_files/{timestamp}-{fileName}`. -/
def specFileKey (url : Str) (now : Nat) (fileName : Str) : Str :=
  let seg := specBeforeQuery (specAfterLastSlash url)
  if seg = [] then
    "input_kml_files/".toList ++ natDecimal now ++ '-' :: fileName
  else seg

/-- C5: for every transfer URL, timestamp and file name, the fileKey the
code derives (last `/`-segment of the URL, truncated at the first `?`,
with the `input_kml_files/{timestamp}-{fileName}` fallback when that
parse is empty) coincides with the spec's description. -/
theorem C5_fileKey (url : Str) (now : Nat) (fileName : Str) :
    fileKeyFromUrl url now fileName = specFileKey url now fileName := by
  simp only [fileKeyFromUrl, specFileKey, specAfterLastSlash, specBeforeQuery,
    getLastD_splitOnChar, headD_splitOnChar]

/-- The events `XMLHttpRequest` delivers to `uploadFileToS3`'s listeners:
a server response (`load` with a status), a transport failure (`error`),
or expiry of the 30-second timer (`timeout`). -/
inductive XhrEvent where
  | load (status : Nat)
  | netError
  | timeout
deriving DecidableEq, Repr

/-- Failure kinds of `uploadFileToS3`; the source rejects with the
messages `Upload timed out`, `Upload failed due to network error`, and
`Upload failed with status: {status}`. -/
inductive TransferError where
  | timeout
  | networkError
  | upstreamError (status : Nat)
deriving DecidableEq, Repr

/-- Resolution or rejection of the `uploadFileToS3` promise. -/
inductive TransferResult where
  | ok (fileKey : Str)
  | error (e : TransferError)
deriving DecidableEq, Repr

/-- `xhr.timeout = 30000`: the fixed 30-second timeout window in ms. -/
def uploadTimeoutMs : Nat := 30000

/-- `uploadFileToS3` from api-service.ts as a function of the transfer
event: `load` resolves with the derived file key when
`xhr.status >= 200 && xhr.status < 300` and rejects with the status
otherwise; `error` and `timeout` reject with the respective errors. -/
def uploadFileToS3 (presignedUrl : Str) (now : Nat) (fileName : Str) :
    XhrEvent → TransferResult
  | .load status =>
    if 200 ≤ status ∧ status < 300 then
      .ok (fileKeyFromUrl presignedUrl now fileName)
    else .error (.upstreamError status)
  | .netError => .error .networkError
  | .timeout => .error .timeout

/-- C3: the transfer fails with `Timeout` on expiry of the fixed timeout
window (whose length is 30000 ms = 30 s), fails with `NetworkError` on
transport failure, fails with `UpstreamError` carrying the status code on
a response with status outside 200–299, and succeeds exactly on a status
in 200–299. -/
theorem C3_transfer (url : Str) (now : Nat) (name : Str) (status : Nat) :
    uploadFileToS3 url now name .timeout = .error .timeout ∧
    uploadFileToS3 url now name .netError = .error .networkError ∧
    uploadTimeoutMs = 30000 ∧
    (200 ≤ status ∧ status < 300 →
      uploadFileToS3 url now name (.load status)
        = .ok (fileKeyFromUrl url now name)) ∧
    (¬(200 ≤ status ∧ status < 300) →
      uploadFileToS3 url now name (.load status)
        = .error (.upstreamError status)) := by
  refine ⟨rfl, rfl, rfl, fun h => ?_, fun h => ?_⟩
  · rw [uploadFileToS3, if_pos h]
  · rw [uploadFileToS3, if_neg h]

/-- Witness for C3: at a concrete URL, a 404 response rejects with
`UpstreamError 404` and the timeout event rejects with `Timeout`. -/
theorem C3_transfer_witness :
    uploadFileToS3 ("https://bucket/input_kml_files/parcel.kml?sig=x".toList)
        5 ("parcel.kml".toList) .timeout = .error .timeout ∧
    uploadFileToS3 ("https://bucket/input_kml_files/parcel.kml?sig=x".toList)
        5 ("parcel.kml".toList) (.load 404)
      = .error (.upstreamError 404) :=
  ⟨(C3_transfer ("https://bucket/input_kml_files/parcel.kml?sig=x".toList)
      5 ("parcel.kml".toList) 404).1,
   (C3_transfer ("https://bucket/input_kml_files/parcel.kml?sig=x".toList)
      5 ("parcel.kml".toList) 404).2.2.2.2 (by omega)⟩

/-! ## Progress reporting (api-service.ts, `uploadFileToS3` progress
listener) -/

/-- JS `Math.round` on a non-negative exact value: round half up. -/
def jsRound (q : ℚ) : ℤ := ⌊q + 1 / 2⌋

/-- The percentage reported by the progress listener:
`Math.round((event.loaded / event.total) * 100)`, with the JS arithmetic
taken at exact rational semantics. -/
def progressPercentage (loaded total : Nat) : ℤ :=
  jsRound ((loaded : ℚ) / (total : ℚ) * 100)

/-- C4 counterexample: at `loaded = 1`, `total = 8` (both `1/8` and
`12.5` are exact in binary floating point, so the JS computation agrees
with the exact value), the code reports `Math.round(12.5) = 13` while
`floor(loaded/total × 100) = 12`; the claim's formula is wrong. -/
theorem C4_counterexample :
    progressPercentage 1 8 = 13 ∧ (⌊(1 : ℚ) / 8 * 100⌋ : ℤ) = 12 ∧
    progressPercentage 1 8 ≠ ⌊(1 : ℚ) / 8 * 100⌋ := by
  have h1 : progressPercentage 1 8 = 13 := by
    rw [progressPercentage, jsRound, Int.floor_eq_iff]
    norm_num
  have h2 : (⌊(1 : ℚ) / 8 * 100⌋ : ℤ) = 12 := by
    rw [Int.floor_eq_iff]
    norm_num
  exact ⟨h1, h2, by rw [h1, h2]; norm_num⟩

theorem floor_natCast_div (a b : Nat) (hb : 0 < b) :
    ⌊((a : ℚ) / (b : ℚ))⌋ = ((a / b : Nat) : ℤ) := by
  have hbQ : (0 : ℚ) < (b : ℚ) := by exact_mod_cast hb
  rw [Int.floor_eq_iff]
  constructor
  · rw [le_div_iff₀ hbQ]
    exact_mod_cast Nat.div_mul_le_self a b
  · rw [div_lt_iff₀ hbQ]
    have hm := Nat.div_add_mod a b
    have hlt := Nat.mod_lt a hb
    have : a < (a / b + 1) * b := by
      have : (a / b + 1) * b = b * (a / b) + b := by ring
      omega
    exact_mod_cast this

/-- C4 amended: for every progress event with `loaded ≤ total` and
`total > 0`, the reported percentage is `round(loaded/total × 100)`
rounding half up — equivalently `⌊(200·loaded + total) / (2·total)⌋` —
not `floor(loaded/total × 100)`; and every reported percentage lies in
`[0, 100]`. -/
theorem C4_amended (l t : Nat) (h1 : l ≤ t) (h2 : 0 < t) :
    progressPercentage l t = ((200 * l + t) / (2 * t) : Nat) ∧
    0 ≤ progressPercentage l t ∧ progressPercentage l t ≤ 100 := by
  have key : (l : ℚ) / (t : ℚ) * 100 + 1 / 2
      = (((200 * l + t : Nat) : ℚ)) / (((2 * t : Nat) : ℚ)) := by
    have ht : ((t : ℚ)) ≠ 0 := by positivity
    push_cast
    field_simp
    ring
  have e1 : progressPercentage l t = ((200 * l + t) / (2 * t) : Nat) := by
    rw [progressPercentage, jsRound, key, floor_natCast_div _ _ (by omega)]
  refine ⟨e1, by rw [e1]; positivity, ?_⟩
  rw [e1]
  have hdiv : (200 * l + t) / (2 * t) < 101 := by
    rw [Nat.div_lt_iff_lt_mul (by omega)]
    omega
  exact_mod_cast Nat.lt_succ_iff.mp hdiv

/-- Witness for C4 amended at `loaded = 1`, `total = 2`: the report is
50 and lies in the bounds. -/
theorem C4_amended_witness :
    progressPercentage 1 2 = ((200 * 1 + 2) / (2 * 2) : Nat) ∧
    0 ≤ progressPercentage 1 2 ∧ progressPercentage 1 2 ≤ 100 :=
  C4_amended 1 2 (by norm_num) (by norm_num)

/-! ## Post-upload notifier (api-service.ts, `processKmlFile`)

`processKmlFile` ignores its `fileKey`, sleeps, and returns
`analysis-{Date.now()}-{Math.random().toString(36).substr(2, 9)}`.
`Math.random()` returns a double `k / 2^53` with `k < 2^53`;
`toString(36)` renders `0.` followed by the base-36 expansion of the
fraction with trailing zeros trimmed (every such value has a finite
expansion, of at most 27 digits, since `k · 36^27 / 2^53` is an
integer), and renders `0` with no fractional digits for `k = 0`;
`substr(2, 9)` then drops the first two characters and keeps at most
nine. -/

/-- `2 ^ 53`, written as a literal. -/
def pow53 : Nat := 9007199254740992

theorem pow53_eq : pow53 = 2 ^ 53 := by norm_num [pow53]

/-- Base-36 digit characters `0-9a-z` as produced by JS `toString(36)`. -/
def digitChar36 (d : Nat) : Char :=
  if d < 10 then Char.ofNat (48 + d) else Char.ofNat (87 + d)

/-- Fractional base-36 digits of `k / 2^53`, stopping at the end of the
exact expansion (trailing zeros trimmed, as `toString(36)` does). -/
def base36FracAux : Nat → Nat → Str
  | 0, _ => []
  | fuel + 1, k =>
    if k = 0 then []
    else digitChar36 (k * 36 / pow53) :: base36FracAux fuel (k * 36 % pow53)

/-- `(k / 2^53).toString(36)` for `0 ≤ k < 2^53`: `'0'` when the value is
zero, else `0.` followed by the fractional digits (27 steps of fuel
exhaust the exact expansion). -/
def jsNumToString36 (k : Nat) : Str :=
  if k = 0 then ['0'] else '0' :: '.' :: base36FracAux 27 k

set_option linter.unusedVariables false in
/-- The `analysisId` returned by `processKmlFile`, with `now` for
`Date.now()` and `k / 2^53` for the `Math.random()` draw.  The function
is total (the source has no error path). -/
def processKmlFile (fileKey : Str) (now k : Nat) : Str :=
  "analysis-".toList ++ natDecimal now ++ '-' ::
    (((jsNumToString36 k).drop 2).take 9)

/-- A character matched by the class `[a-z0-9]`. -/
def isLowerBase36 (c : Char) : Bool :=
  ('0' ≤ c && c ≤ '9') || ('a' ≤ c && c ≤ 'z')

/-- Full-match test for the regular expression
`analysis-\d+-[a-z0-9]{9}` (the greedy simulation is exact here because
`[a-z0-9]` cannot match the `-` that must follow `\d+`). -/
def matchesTrackingPattern (s : Str) : Bool :=
  match dropPrefixStr ("analysis-".toList) s with
  | none => false
  | some rest =>
    match rest.dropWhile Char.isDigit with
    | '-' :: tail =>
      !(rest.takeWhile Char.isDigit).isEmpty && tail.length == 9
        && tail.all isLowerBase36
    | _ => false

/-- C8 counterexample: the pattern checker accepts a well-formed id, but
at the `Math.random()` draw `0.5` (`k = 2^52`, a value the JS RNG can
return) the base-36 expansion is the single digit `i`, so the id is
`analysis-0-i` (at timestamp 0) and its random suffix has 1 character,
not 9: the claimed pattern with exactly nine trailing characters fails. -/
theorem C8_counterexample :
    matchesTrackingPattern ("analysis-1712345678901-4fzyo82mv".toList) = true ∧
    processKmlFile ("input_kml_files/parcel.kml".toList) 0 4503599627370496
      = "analysis-0-i".toList ∧
    matchesTrackingPattern
      (processKmlFile ("input_kml_files/parcel.kml".toList) 0
        4503599627370496) = false := by
  refine ⟨by decide, by decide, by decide⟩

theorem digitChar36_base36 (d : Nat) (hd : d < 36) :
    isLowerBase36 (digitChar36 d) = true := by
  interval_cases d <;> decide

theorem base36FracAux_all (fuel : Nat) : ∀ k, k < pow53 →
    (base36FracAux fuel k).all isLowerBase36 = true := by
  induction fuel with
  | zero => intro k _; rfl
  | succ fuel ih =>
    intro k hk
    rw [base36FracAux]
    by_cases h : k = 0
    · simp [h]
    · rw [if_neg h]
      rw [List.all_cons]
      have hd : k * 36 / pow53 < 36 := by
        rw [Nat.div_lt_iff_lt_mul (by norm_num [pow53])]
        calc k * 36 < pow53 * 36 := by
              exact Nat.mul_lt_mul_of_lt_of_le hk (le_refl 36) (by norm_num)
          _ = 36 * pow53 := by ring
      rw [digitChar36_base36 _ hd,
        ih (k * 36 % pow53) (Nat.mod_lt _ (by norm_num [pow53]))]
      rfl

theorem digitChar_isDigit (d : Nat) (hd : d < 10) :
    (digitChar d).isDigit = true := by
  interval_cases d <;> decide

theorem natDecimalGo_all (fuel : Nat) : ∀ n, n < fuel →
    (natDecimalGo fuel n).all Char.isDigit = true := by
  induction fuel with
  | zero => intro n h; omega
  | succ fuel ih =>
    intro n hn
    rw [natDecimalGo]
    by_cases h : n < 10
    · rw [if_pos h]
      simp [digitChar_isDigit n h]
    · rw [if_neg h, List.all_append]
      have h1 : n / 10 < fuel := by
        have := Nat.div_lt_self (by omega : 0 < n) (by omega : 1 < 10)
        omega
      rw [ih (n / 10) h1]
      simp [digitChar_isDigit (n % 10) (Nat.mod_lt _ (by omega))]

theorem natDecimalGo_ne_nil (fuel n : Nat) (h : n < fuel) :
    natDecimalGo fuel n ≠ [] := by
  cases fuel with
  | zero => omega
  | succ fuel =>
    rw [natDecimalGo]
    by_cases h10 : n < 10
    · simp [h10]
    · rw [if_neg h10]
      simp

theorem natDecimal_all (n : Nat) : (natDecimal n).all Char.isDigit = true :=
  natDecimalGo_all (n + 1) n (by omega)

theorem natDecimal_ne_nil (n : Nat) : natDecimal n ≠ [] :=
  natDecimalGo_ne_nil (n + 1) n (by omega)

theorem all_take {α : Type} (p : α → Bool) (n : Nat) (l : List α)
    (h : l.all p = true) : (l.take n).all p = true := by
  rw [List.all_eq_true] at h ⊢
  exact fun x hx => h x (List.mem_of_mem_take hx)

/-- C8 amended: `processKmlFile` never fails (it is a total function),
and the tracking id it returns is the literal prefix `analysis-`, a
non-empty decimal timestamp, a hyphen, and then AT MOST nine base-36
characters — possibly fewer than nine, because `toString(36)` trims the
expansion of random values such as `0.5`. -/
theorem C8_amended (fileKey : Str) (now k : Nat) (hk : k < pow53) :
    processKmlFile fileKey now k
      = "analysis-".toList ++ natDecimal now ++ '-'
          :: (((jsNumToString36 k).drop 2).take 9) ∧
    natDecimal now ≠ [] ∧ (natDecimal now).all Char.isDigit = true ∧
    (((jsNumToString36 k).drop 2).take 9).length ≤ 9 ∧
    (((jsNumToString36 k).drop 2).take 9).all isLowerBase36 = true := by
  refine ⟨rfl, natDecimal_ne_nil now, natDecimal_all now,
    List.length_take_le .., ?_⟩
  apply all_take
  rw [jsNumToString36]
  by_cases h : k = 0
  · simp [h]
  · rw [if_neg h]
    show (base36FracAux 27 k).all isLowerBase36 = true
    exact base36FracAux_all 27 k hk

/-- Witness for C8 amended at `now = 0`, `k = 0`. -/
theorem C8_amended_witness :
    processKmlFile [] 0 0
      = "analysis-".toList ++ natDecimal 0 ++ '-'
          :: (((jsNumToString36 0).drop 2).take 9) ∧
    natDecimal 0 ≠ [] ∧ (natDecimal 0).all Char.isDigit = true ∧
    (((jsNumToString36 0).drop 2).take 9).length ≤ 9 ∧
    (((jsNumToString36 0).drop 2).take 9).all isLowerBase36 = true :=
  C8_amended [] 0 0 (by norm_num [pow53])

/-! ## Credential proxy route (src/app/api/presigned-url/route.ts, `POST`) -/

/-- JSON body of the Lambda function's reply, each field optional. -/
structure LambdaRespBody where
  uploadUrl : Option Str
  fileKey : Option Str
  expiresIn : Option Nat
deriving DecidableEq, Repr

/-- The route's HTTP reply: an error JSON with a status, or a credential
set (we record the fields the claims speak about). -/
inductive ProxyReply where
  | errorReply (status : Nat)
  | credentials (status : Nat) (presignedUrl fileKey : Str) (expiresIn : Nat)
deriving DecidableEq, Repr

/-- The fallback `presignedUrl` the route synthesizes:
`https://mock-s3-bucket.s3.amazonaws.com/{fileName}?X-Amz-...` with a
formatted date (`dateStr` models the `new Date().toISOString()` part). -/
def mockPresignedUrl (fileName dateStr : Str) : Str :=
  "https://mock-s3-bucket.s3.amazonaws.com/".toList ++ fileName
    ++ "?X-Amz-Algorithm=AWS4-HMAC-SHA256&X-Amz-Credential=mock&X-Amz-Date=".toList
    ++ dateStr
    ++ "Z&X-Amz-Expires=3600&X-Amz-SignedHeaders=host&X-Amz-Signature=mock".toList

/-- The `POST` handler of `/api/presigned-url`: 400 on a falsy
`fileName`, 500 on a transport failure reaching the Lambda, the Lambda's
own status on a non-2xx reply, the synthesized fallback credential set on
a 2xx reply lacking `uploadUrl`, and the transformed Lambda data
otherwise. -/
def presignedUrlRoutePOST (fileName : Option Str) (dateStr : Str)
    (net : Fetch LambdaRespBody) : ProxyReply :=
  if jsFalsyStr fileName then .errorReply 400
  else
    match net with
    | .transportError => .errorReply 500
    | .response status body =>
      if responseOk status then
        if jsFalsyStr body.uploadUrl then
          .credentials 200 (mockPresignedUrl (fileName.getD []) dateStr)
            (fileName.getD []) 3600
        else
          .credentials 200 (body.uploadUrl.getD [])
            (jsOrStr body.fileKey (fileName.getD []))
            (jsOrNat body.expiresIn 3600)
      else .errorReply status

theorem isPrefixList_append (p r : Str) : isPrefixList p (p ++ r) = true := by
  induction p with
  | nil => rfl
  | cons a as ih => simp [isPrefixList, ih]

/-- C9: when the Lambda replies 2xx but omits `uploadUrl`, the proxy does
not fail: it replies HTTP 200 with the synthesized fallback credentials,
whose `fileKey` equals the requested `fileName`, whose `expiresIn` is
3600, and whose `presignedUrl` is the mock bucket URL built from the
`fileName` (in particular it starts with
`https://mock-s3-bucket.s3.amazonaws.com/{fileName}`). -/
theorem C9_fallback (fileName : Str) (hne : fileName ≠ []) (dateStr : Str)
    (status : Nat) (h2 : 200 ≤ status) (h3 : status < 300)
    (fk : Option Str) (ei : Option Nat) :
    presignedUrlRoutePOST (some fileName) dateStr
        (.response status ⟨none, fk, ei⟩)
      = .credentials 200 (mockPresignedUrl fileName dateStr) fileName 3600 ∧
    isPrefixList
      ("https://mock-s3-bucket.s3.amazonaws.com/".toList ++ fileName)
      (mockPresignedUrl fileName dateStr) = true := by
  constructor
  · rw [presignedUrlRoutePOST.eq_def]
    simp [jsFalsyStr, hne, if_pos (show responseOk status from ⟨h2, h3⟩)]
  · rw [mockPresignedUrl, List.append_assoc, List.append_assoc]
    exact isPrefixList_append ..

/-- Witness for C9 at the concrete request `input_kml_files/parcel.kml`
and a 200 Lambda reply with an empty body. -/
theorem C9_fallback_witness :
    presignedUrlRoutePOST (some ("input_kml_files/parcel.kml".toList))
        ("20250101T000000".toList) (.response 200 ⟨none, none, none⟩)
      = .credentials 200
          (mockPresignedUrl ("input_kml_files/parcel.kml".toList)
            ("20250101T000000".toList))
          ("input_kml_files/parcel.kml".toList) 3600 ∧
    isPrefixList
      ("https://mock-s3-bucket.s3.amazonaws.com/".toList
        ++ "input_kml_files/parcel.kml".toList)
      (mockPresignedUrl ("input_kml_files/parcel.kml".toList)
        ("20250101T000000".toList)) = true :=
  C9_fallback ("input_kml_files/parcel.kml".toList) (by decide)
    ("20250101T000000".toList) 200 (by norm_num) (by norm_num) none none
